import Mathlib

/-!
Verification development for the rustlings exercise-progression engine.

The Rust sources embedded here are `src/verify.rs` (the fail-fast batch
verifier) and `src/list.rs` (the interactive exercise list UI).  Effects
(process invocation, terminal writes, terminal mode switches) are made
explicit as an event trace; fallible operations (`?` / `bail!`) are
embedded with `Except`.  External collaborators that live outside the two
embedded files (`Exercise::run`, `Exercise::state`, the persisted
completion state) are modelled from the specification, as oracle fields
carried by each exercise value.
-/

namespace Rustlings

/-- Modelled from the spec: toolchain invocation result
`{ exit_success, stdout, stderr }` (spec §3 RunResult, §6 Toolchain
invocation).  Mirrors `std::process::Output` as used by `verify.rs`:
`status.success()` is the boolean, stdout/stderr are the captured bytes. -/
structure Output where
  status_success : Bool
  stdout : String
  stderr : String
  deriving Repr, DecidableEq

/-- `ContextLine` from the spec (§3): a line surrounding the "not done"
marker, as consumed by `prompt_for_completion` in `verify.rs`. -/
structure ContextLine where
  line : String
  number : Nat
  important : Bool
  deriving Repr, DecidableEq

/-- `crate::exercise::State` as consumed by `verify.rs`: either the
exercise is acknowledged done, or it is pending with the context lines
around the "I AM NOT DONE" marker. -/
inductive State where
  | done
  | pending (context : List ContextLine)
  deriving Repr, DecidableEq

/-- `crate::exercise::Mode`. -/
inductive Mode where
  | test
  | compile
  | clippy
  deriving Repr, DecidableEq

instance {ε α : Type} [DecidableEq ε] [DecidableEq α] : DecidableEq (Except ε α) := fun a b =>
  match a, b with
  | .error e, .error f =>
    if h : e = f then isTrue (by rw [h])
    else isFalse (by intro he; cases he; exact h rfl)
  | .ok x, .ok y =>
    if h : x = y then isTrue (by rw [h])
    else isFalse (by intro he; cases he; exact h rfl)
  | .error _, .ok _ => isFalse (by intro he; cases he)
  | .ok _, .error _ => isFalse (by intro he; cases he)

/-- `crate::exercise::Exercise`.  The fields `name`, `path`, `mode`,
`hint` are the catalog data (spec §3).  `runResult` and `stateResult` are
modelled from the spec: they are the oracles for the external collaborator
calls `exercise.run()` (toolchain invocation, `Err` when the process
cannot be spawned) and `exercise.state()` (sentinel-marker inspection,
spec §6), whose implementations are outside the embedded sources. -/
structure Exercise where
  name : String
  path : String
  mode : Mode
  hint : String
  runResult : Except String Output
  stateResult : Except String State
  deriving Repr, DecidableEq

/-- `VerifyState` from `verify.rs` (spec §3 VerifyOutcome).  The Rust
enum borrows the failing exercise; the embedding stores it by value. -/
inductive VerifyState where
  | allExercisesDone
  | failed (e : Exercise)
  deriving Repr, DecidableEq

/-- `RunMode` from `verify.rs`. -/
inductive RunMode where
  | interactive
  | nonInteractive
  deriving Repr, DecidableEq

/-- Observable side effects of the verifier, in emission order:
`invoke` records a toolchain invocation (`exercise.run()`),
`warn`/`success` the macro banners, `writeBytes` raw stdout writes,
`println` line output, and `setMsg` a progress-bar percentage message.
The percentage is carried exactly as a rational; the Rust code uses `f32`
(whose division by zero yields NaN/inf without panicking — both models
are total). -/
inductive Event where
  | invoke (name : String)
  | warn (msg : String)
  | success (msg : String)
  | writeBytes (s : String)
  | println (s : String)
  | setMsg (percentage : ℚ)
  deriving Repr, DecidableEq

/-- The `success!` line printed by `prompt_for_completion` per mode. -/
def success_line (e : Exercise) : String :=
  match e.mode with
  | .compile => "Successfully ran " ++ e.name ++ "!"
  | .test => "Successfully tested " ++ e.name ++ "!"
  | .clippy => "Successfully compiled " ++ e.name ++ "!"

/-- The per-mode success message of `prompt_for_completion`
(`clippy_success_msg` depends on the NO_EMOJI toggle). -/
def success_msg (e : Exercise) (no_emoji : Bool) : String :=
  match e.mode with
  | .compile => "The code is compiling!"
  | .test => "The code is compiling, and the tests pass!"
  | .clippy =>
    if no_emoji then "The code is compiling, and Clippy is happy!"
    else "The code is compiling, and 📎 Clippy 📎 is happy!"

/-- The banner line around `success_msg` (emoji-decorated or plain). -/
def banner_str (e : Exercise) (no_emoji : Bool) : String :=
  if no_emoji then "\n~*~ " ++ success_msg e no_emoji ++ " ~*~\n"
  else "\n🎉 🎉 " ++ success_msg e no_emoji ++ " 🎉 🎉\n"

/-- The `separator()` helper of `verify.rs` (styling stripped). -/
def separator : String := "===================="

/-- Rendering of one context line (`{:>2} {}  {}` with blue/bold styling
and padding stripped to the plain content). -/
def context_line_str (cl : ContextLine) : String :=
  toString cl.number ++ " |  " ++ cl.line

/-- `prompt_for_completion` from `verify.rs` lines 148-219.  The ambient
`env::var("NO_EMOJI")` read is passed in as the `no_emoji` parameter.
Returns the emitted events and `Ok(bool)` ("exercise fully done?") or the
propagated error of `exercise.state()?`. -/
def prompt_for_completion (exercise : Exercise) (prompt_output : Option Output)
    (success_hints no_emoji : Bool) : List Event × Except String Bool :=
  match exercise.stateResult with
  | .error msg => ([], .error msg)
  | .ok .done => ([], .ok true)
  | .ok (.pending context) =>
    let outputEvs : List Event :=
      match prompt_output with
      | some output =>
        [Event.println ("Output:\n" ++ separator),
         Event.writeBytes output.stdout,
         Event.println ("\n" ++ separator ++ "\n")]
      | none => []
    let hintEvs : List Event :=
      if success_hints then
        [Event.println ("Hints:\n" ++ separator ++ "\n" ++ exercise.hint ++
          "\n" ++ separator ++ "\n")]
      else []
    (Event.success (success_line exercise) ::
      Event.println (banner_str exercise no_emoji) ::
      outputEvs ++ hintEvs ++
      [Event.println "You can keep working on this exercise,",
       Event.println "or jump into the next one by removing the `I AM NOT DONE` comment:"] ++
      context.map (fun cl => Event.println (context_line_str cl)),
     .ok false)

/-- `compile_only` from `verify.rs` lines 74-83.  Note the source writes
`let _ = exercise.run()?;` — the captured `Output`, exit status included,
is discarded; only a spawn error propagates. -/
def compile_only (exercise : Exercise) (success_hints no_emoji : Bool) :
    List Event × Except String Bool :=
  match exercise.runResult with
  | .error msg => ([Event.invoke exercise.name], .error msg)
  | .ok _ =>
    let r := prompt_for_completion exercise none success_hints no_emoji
    (Event.invoke exercise.name :: r.1, r.2)

/-- `compile_and_run_interactively` from `verify.rs` lines 86-106.  On a
nonzero exit status the source emits the warning and the captured
stdout+stderr, then `bail!("TODO")` — an `Err`, not `Ok(false)`. -/
def compile_and_run_interactively (exercise : Exercise)
    (success_hints no_emoji : Bool) : List Event × Except String Bool :=
  match exercise.runResult with
  | .error msg => ([Event.invoke exercise.name], .error msg)
  | .ok output =>
    if output.status_success = false then
      ([Event.invoke exercise.name,
        Event.warn ("Ran " ++ exercise.name ++ " with errors"),
        Event.writeBytes output.stdout,
        Event.writeBytes output.stderr],
       .error "TODO")
    else
      let r := prompt_for_completion exercise (some output) success_hints no_emoji
      (Event.invoke exercise.name :: r.1, r.2)

/-- `compile_and_test` from `verify.rs` lines 110-146.  On a nonzero exit
status: warning + captured output + `bail!("TODO")`.  On success, stdout
is echoed when `verbose`, and in `Interactive` mode the completion prompt
decides the boolean. -/
def compile_and_test (exercise : Exercise) (run_mode : RunMode)
    (verbose success_hints no_emoji : Bool) : List Event × Except String Bool :=
  match exercise.runResult with
  | .error msg => ([Event.invoke exercise.name], .error msg)
  | .ok output =>
    if output.status_success = false then
      ([Event.invoke exercise.name,
        Event.warn ("Testing of " ++ exercise.name ++
          " failed! Please try again. Here's the output:"),
        Event.writeBytes output.stdout,
        Event.writeBytes output.stderr],
       .error "TODO")
    else
      let verboseEvs : List Event :=
        if verbose then [Event.writeBytes output.stdout] else []
      if run_mode = RunMode.interactive then
        let r := prompt_for_completion exercise none success_hints no_emoji
        (Event.invoke exercise.name :: verboseEvs ++ r.1, r.2)
      else
        (Event.invoke exercise.name :: verboseEvs, .ok true)

/-- The per-exercise dispatch of `verify`'s loop body (lines 42-46):
one toolchain step according to the exercise mode. -/
def stepResult (exercise : Exercise) (verbose success_hints no_emoji : Bool) :
    List Event × Except String Bool :=
  match exercise.mode with
  | .test => compile_and_test exercise RunMode.interactive verbose success_hints no_emoji
  | .compile => compile_and_run_interactively exercise success_hints no_emoji
  | .clippy => compile_only exercise success_hints no_emoji

/-- `true` iff the loop body yields `Ok(true)` for this exercise, i.e.
the exercise passes its step and is acknowledged done, so `verify`
continues past it. -/
def stepOk (exercise : Exercise) (verbose success_hints no_emoji : Bool) : Bool :=
  match (stepResult exercise verbose success_hints no_emoji).2 with
  | .ok true => true
  | _ => false

/-- The `for` loop of `verify` (lines 41-53), threading the running f32
`percentage` (embedded as an exact rational): after each passing exercise
the percentage grows by `100/total` and the new value is displayed via
`bar.set_message`. -/
def verifyLoop (pending : List Exercise) (total : Nat) (percentage : ℚ)
    (verbose success_hints no_emoji : Bool) :
    List Event × Except String VerifyState :=
  match pending with
  | [] => ([Event.println "You completed all exercises!"], .ok .allExercisesDone)
  | exercise :: rest =>
    let r := stepResult exercise verbose success_hints no_emoji
    match r.2 with
    | .error msg => (r.1, .error msg)
    | .ok compile_result =>
      if compile_result = false then
        (r.1, .ok (.failed exercise))
      else
        let percentage' := percentage + 100 / (total : ℚ)
        let rec' := verifyLoop rest total percentage' verbose success_hints no_emoji
        (r.1 ++ Event.setMsg percentage' :: rec'.1, rec'.2)

/-- `verify` from `verify.rs` lines 23-59: initializes the progress bar
at `num_done/total * 100` (the initial `bar.set_message`), then runs the
fail-fast loop. -/
def verify (pending_exercises : List Exercise) (progress : Nat × Nat)
    (verbose success_hints no_emoji : Bool) :
    List Event × Except String VerifyState :=
  let num_done := progress.1
  let total := progress.2
  let percentage := (num_done : ℚ) / (total : ℚ) * 100
  let r := verifyLoop pending_exercises total percentage verbose success_hints no_emoji
  (Event.setMsg percentage :: r.1, r.2)

/-- The toolchain invocations recorded in a trace, in order. -/
def invokes (evs : List Event) : List String :=
  evs.filterMap (fun ev =>
    match ev with
    | .invoke n => some n
    | _ => none)

/-- The progress-bar percentage messages recorded in a trace, in order. -/
def setMsgs (evs : List Event) : List ℚ :=
  evs.filterMap (fun ev =>
    match ev with
    | .setMsg p => some p
    | _ => none)

/-- Modelled from the spec: `crate::state::State` (spec §3
CompletionState): per-exercise completion bits plus the next-exercise
index.  `list.rs` takes it by shared reference and only reads it while
rendering the table. -/
structure CompletionState where
  progress : List Bool
  next_exercise_ind : Nat
  deriving Repr, DecidableEq

/-- Key codes relevant to the `list` match (other codes collapse into
`other`, the `_` arm). -/
inductive KeyCode where
  | char (c : Char)
  | down
  | up
  | home
  | endKey
  | other
  deriving Repr, DecidableEq

/-- One `crossterm` event as consumed by the inner read loop of `list`
(`isPress` embeds the `key.kind == KeyEventKind::Press` test). -/
inductive InputEvent where
  | key (isPress : Bool) (code : KeyCode)
  | resize
  | focusGained
  | focusLost
  | mouse
  | paste
  deriving Repr, DecidableEq

/-- Observable terminal effects of `list`, in emission order:
alternate-screen entry/exit and raw-mode switches, each
`terminal.draw` (with the selection it renders), and each
`table_state.select(Some(n))`. -/
inductive UiEvent where
  | enterAlt
  | rawModeOn
  | leaveAlt
  | rawModeOff
  | draw (selected : Nat)
  | selectIdx (n : Nat)
  deriving Repr, DecidableEq

/-- How `list` terminates in the embedding: `ioError` is a propagated
`?` failure (here: of `event::read()`), `subOverflow` is the debug-build
panic of `exercises.len() - 1` on an empty catalog, and `blocked` marks
the point where the real loop would block forever because the event
script is exhausted (no claim exercises that case as behavior). -/
inductive ListErr where
  | ioError (msg : String)
  | subOverflow
  | blocked
  deriving Repr, DecidableEq

/-- The selection update for one movement key, exactly the arithmetic of
the `list` match arms: down/`j` is `selected.saturating_add(1).min(last_ind)`,
up/`k` is `selected.saturating_sub(1).max(0)` (ℕ subtraction is the
saturating one), home/`g` is `0`, end/`G` is `last_ind`; `none` for keys
the match ignores.  `saturating_add` is embedded as `+` on ℕ, which
agrees with `usize` whenever `selected ≤ last_ind < 2^64`. -/
def keyMove (last_ind selected : Nat) (code : KeyCode) : Option Nat :=
  match code with
  | .down => some (min (selected + 1) last_ind)
  | .up => some (max (selected - 1) 0)
  | .home => some 0
  | .endKey => some last_ind
  | .char c =>
    if c = 'j' then some (min (selected + 1) last_ind)
    else if c = 'k' then some (max (selected - 1) 0)
    else if c = 'g' then some 0
    else if c = 'G' then some last_ind
    else none
  | .other => none

/-- The render/input loop of `list` (lines 85-148), entered right after a
`terminal.draw`.  The event script supplies each `event::read()` result.
Non-press keys and focus/mouse/paste events loop back to the read;
a resize continues the outer loop (a fresh draw); a movement key selects
and continues the outer loop; `q` breaks; any other key also continues
the outer loop via the `_ => ()` arm. -/
def listLoopRead (last_ind selected : Nat) :
    List (Except String InputEvent) → List UiEvent × Except ListErr Unit
  | [] => ([], .error .blocked)
  | .error msg :: _ => ([], .error (.ioError msg))
  | .ok iev :: rest =>
    match iev with
    | .resize =>
      let r := listLoopRead last_ind selected rest
      (UiEvent.draw selected :: r.1, r.2)
    | .focusGained => listLoopRead last_ind selected rest
    | .focusLost => listLoopRead last_ind selected rest
    | .mouse => listLoopRead last_ind selected rest
    | .paste => listLoopRead last_ind selected rest
    | .key isPress code =>
      if isPress = false then listLoopRead last_ind selected rest
      else if code = .char 'q' then ([], .ok ())
      else
        match keyMove last_ind selected code with
        | some selected' =>
          let r := listLoopRead last_ind selected' rest
          (UiEvent.selectIdx selected' :: UiEvent.draw selected' :: r.1, r.2)
        | none =>
          let r := listLoopRead last_ind selected rest
          (UiEvent.draw selected :: r.1, r.2)

/-- `list` from `list.rs` lines 70-155.  Setup enters the alternate
screen and raw mode (their own failure modes, like `Terminal::new` and
`terminal.clear`, are not scripted — no claim concerns them).  The
unconditional `let last_ind = exercises.len() - 1;` underflows (panics in
a debug build) on an empty catalog.  Then `selected = 0` regardless of
`state`, the table state selects it, and the loop runs; only after the
loop break do `LeaveAlternateScreen` and `disable_raw_mode` run — an
error exiting the loop propagates before them. -/
def list (state : CompletionState) (exercises : List Exercise)
    (events : List (Except String InputEvent)) :
    List UiEvent × Except ListErr Unit :=
  let setup := [UiEvent.enterAlt, UiEvent.rawModeOn]
  if exercises.length = 0 then
    (setup, .error .subOverflow)
  else
    let last_ind := exercises.length - 1
    let r := listLoopRead last_ind 0 events
    match r.2 with
    | .ok _ =>
      (setup ++ UiEvent.selectIdx 0 :: UiEvent.draw 0 :: r.1 ++
        [UiEvent.leaveAlt, UiEvent.rawModeOff], .ok ())
    | .error e =>
      (setup ++ UiEvent.selectIdx 0 :: UiEvent.draw 0 :: r.1, .error e)

/-! Concrete inputs used by the closed evaluation theorems and witnesses. -/

/-- A Compile-mode exercise whose toolchain invocation exits nonzero. -/
def exC1fail : Exercise :=
  { name := "intro1", path := "exercises/intro1.rs", mode := .compile, hint := "h1",
    runResult := .ok { status_success := false, stdout := "out1", stderr := "err1" },
    stateResult := .ok (.pending []) }

/-- A Clippy-mode exercise whose invocation exits nonzero (lint failure)
but whose source no longer carries the marker. -/
def exC6lint : Exercise :=
  { name := "clippy1", path := "exercises/clippy1.rs", mode := .clippy, hint := "h6",
    runResult := .ok { status_success := false, stdout := "", stderr := "lint failure" },
    stateResult := .ok .done }

def stC2 : CompletionState := { progress := [false], next_exercise_ind := 0 }

def exC2 : Exercise :=
  { name := "ex2", path := "p2", mode := .compile, hint := "",
    runResult := .ok { status_success := true, stdout := "", stderr := "" },
    stateResult := .ok .done }

def stC3 : CompletionState := { progress := [false], next_exercise_ind := 0 }

def exC3 : Exercise :=
  { name := "ex3", path := "p3", mode := .compile, hint := "",
    runResult := .ok { status_success := true, stdout := "", stderr := "" },
    stateResult := .ok .done }

def clC4 : ContextLine := { line := "// I AM NOT DONE", number := 2, important := true }

def outC4 : Output := { status_success := true, stdout := "ok-out", stderr := "" }

/-- Invocation succeeds, marker still present. -/
def exC4 : Exercise :=
  { name := "move1", path := "exercises/move1.rs", mode := .compile, hint := "h4",
    runResult := .ok outC4, stateResult := .ok (.pending [clC4]) }

/-- A later exercise in the same batch as `exC4`. -/
def exC4b : Exercise :=
  { name := "move2", path := "exercises/move2.rs", mode := .test, hint := "h4b",
    runResult := .ok { status_success := true, stdout := "", stderr := "" },
    stateResult := .ok .done }

/-- Fully passing exercise (invocation succeeds, marker removed). -/
def exC5a : Exercise :=
  { name := "a", path := "pa", mode := .compile, hint := "",
    runResult := .ok { status_success := true, stdout := "", stderr := "" },
    stateResult := .ok .done }

/-- Failing exercise (nonzero exit status). -/
def exC5b : Exercise :=
  { name := "b", path := "pb", mode := .test, hint := "",
    runResult := .ok { status_success := false, stdout := "so", stderr := "se" },
    stateResult := .ok .done }

/-- An exercise after the failing one. -/
def exC5c : Exercise :=
  { name := "c", path := "pc", mode := .clippy, hint := "",
    runResult := .ok { status_success := true, stdout := "", stderr := "" },
    stateResult := .ok .done }

def stC8 : CompletionState := { progress := [false, true], next_exercise_ind := 1 }

def exC8 : Exercise :=
  { name := "ex8", path := "p8", mode := .compile, hint := "",
    runResult := .ok { status_success := true, stdout := "", stderr := "" },
    stateResult := .ok .done }

/-- Fully passing exercise for the percentage computation. -/
def exC9 : Exercise :=
  { name := "ex9", path := "p9", mode := .compile, hint := "",
    runResult := .ok { status_success := true, stdout := "", stderr := "" },
    stateResult := .ok .done }

def stC10 : CompletionState := { progress := [], next_exercise_ind := 0 }

def exC10 : Exercise :=
  { name := "ex10", path := "p10", mode := .compile, hint := "",
    runResult := .ok { status_success := true, stdout := "", stderr := "" },
    stateResult := .ok .done }

/-! Helper lemmas about the traces. -/

@[simp]
lemma invokes_nil : invokes [] = [] := rfl

@[simp]
lemma invokes_append (a b : List Event) :
    invokes (a ++ b) = invokes a ++ invokes b :=
  List.filterMap_append a b _

@[simp]
lemma invokes_cons_invoke (n : String) (evs : List Event) :
    invokes (Event.invoke n :: evs) = n :: invokes evs := rfl

@[simp]
lemma invokes_cons_warn (s : String) (evs : List Event) :
    invokes (Event.warn s :: evs) = invokes evs := rfl

@[simp]
lemma invokes_cons_success (s : String) (evs : List Event) :
    invokes (Event.success s :: evs) = invokes evs := rfl

@[simp]
lemma invokes_cons_writeBytes (s : String) (evs : List Event) :
    invokes (Event.writeBytes s :: evs) = invokes evs := rfl

@[simp]
lemma invokes_cons_println (s : String) (evs : List Event) :
    invokes (Event.println s :: evs) = invokes evs := rfl

@[simp]
lemma invokes_cons_setMsg (p : ℚ) (evs : List Event) :
    invokes (Event.setMsg p :: evs) = invokes evs := rfl

@[simp]
lemma setMsgs_nil : setMsgs [] = [] := rfl

@[simp]
lemma setMsgs_append (a b : List Event) :
    setMsgs (a ++ b) = setMsgs a ++ setMsgs b :=
  List.filterMap_append a b _

@[simp]
lemma setMsgs_cons_invoke (n : String) (evs : List Event) :
    setMsgs (Event.invoke n :: evs) = setMsgs evs := rfl

@[simp]
lemma setMsgs_cons_warn (s : String) (evs : List Event) :
    setMsgs (Event.warn s :: evs) = setMsgs evs := rfl

@[simp]
lemma setMsgs_cons_success (s : String) (evs : List Event) :
    setMsgs (Event.success s :: evs) = setMsgs evs := rfl

@[simp]
lemma setMsgs_cons_writeBytes (s : String) (evs : List Event) :
    setMsgs (Event.writeBytes s :: evs) = setMsgs evs := rfl

@[simp]
lemma setMsgs_cons_println (s : String) (evs : List Event) :
    setMsgs (Event.println s :: evs) = setMsgs evs := rfl

@[simp]
lemma setMsgs_cons_setMsg (p : ℚ) (evs : List Event) :
    setMsgs (Event.setMsg p :: evs) = p :: setMsgs evs := rfl

@[simp]
lemma invokes_map_println {α : Type} (f : α → String) (l : List α) :
    invokes (l.map (fun a => Event.println (f a))) = [] := by
  induction l with
  | nil => rfl
  | cons a l ih => simpa using ih

@[simp]
lemma setMsgs_map_println {α : Type} (f : α → String) (l : List α) :
    setMsgs (l.map (fun a => Event.println (f a))) = [] := by
  induction l with
  | nil => rfl
  | cons a l ih => simpa using ih

/-- `prompt_for_completion` never invokes the toolchain. -/
lemma invokes_prompt (e : Exercise) (po : Option Output) (sh ne : Bool) :
    invokes ((prompt_for_completion e po sh ne).1) = [] := by
  unfold prompt_for_completion
  rcases e.stateResult with msg | st
  · rfl
  · rcases st with _ | ctx
    · rfl
    · rcases po with _ | out <;> rcases sh with _ | _ <;> simp

/-- `prompt_for_completion` never updates the percentage message. -/
lemma setMsgs_prompt (e : Exercise) (po : Option Output) (sh ne : Bool) :
    setMsgs ((prompt_for_completion e po sh ne).1) = [] := by
  unfold prompt_for_completion
  rcases e.stateResult with msg | st
  · rfl
  · rcases st with _ | ctx
    · rfl
    · rcases po with _ | out <;> rcases sh with _ | _ <;> simp

/-- One loop step invokes the toolchain exactly once, for that exercise. -/
lemma invokes_stepResult (e : Exercise) (v sh ne : Bool) :
    invokes ((stepResult e v sh ne).1) = [e.name] := by
  unfold stepResult compile_and_test compile_and_run_interactively compile_only
  rcases e.mode with _ | _ | _ <;> rcases e.runResult with msg | out
  · simp
  · rcases h : out.status_success with _ | _ <;> rcases v with _ | _ <;>
      simp [h, invokes_prompt]
  · simp
  · rcases h : out.status_success with _ | _ <;> simp [h, invokes_prompt]
  · simp
  · simp [invokes_prompt]

/-- One loop step emits no percentage message of its own. -/
lemma setMsgs_stepResult (e : Exercise) (v sh ne : Bool) :
    setMsgs ((stepResult e v sh ne).1) = [] := by
  unfold stepResult compile_and_test compile_and_run_interactively compile_only
  rcases e.mode with _ | _ | _ <;> rcases e.runResult with msg | out
  · simp
  · rcases h : out.status_success with _ | _ <;> rcases v with _ | _ <;>
      simp [h, setMsgs_prompt]
  · simp
  · rcases h : out.status_success with _ | _ <;> simp [h, setMsgs_prompt]
  · simp
  · simp [setMsgs_prompt]

lemma stepOk_true_iff (e : Exercise) (v sh ne : Bool) :
    stepOk e v sh ne = true ↔ (stepResult e v sh ne).2 = .ok true := by
  unfold stepOk
  rcases h : (stepResult e v sh ne).2 with msg | b
  · simp
  · rcases b with _ | _ <;> simp

lemma stepOk_false_iff (e : Exercise) (v sh ne : Bool) :
    stepOk e v sh ne = false ↔ (stepResult e v sh ne).2 ≠ .ok true := by
  constructor
  · intro h hcontra
    rw [(stepOk_true_iff e v sh ne).2 hcontra] at h
    cases h
  · intro h
    rcases hso : stepOk e v sh ne with _ | _
    · rfl
    · exact absurd ((stepOk_true_iff e v sh ne).1 hso) h

/-- Unfolding of `verifyLoop` on a passing head exercise. -/
lemma verifyLoop_cons_ok (e : Exercise) (rest : List Exercise) (total : Nat)
    (p : ℚ) (v sh ne : Bool) (h : stepOk e v sh ne = true) :
    verifyLoop (e :: rest) total p v sh ne =
      ((stepResult e v sh ne).1 ++ Event.setMsg (p + 100 / (total : ℚ)) ::
        (verifyLoop rest total (p + 100 / (total : ℚ)) v sh ne).1,
       (verifyLoop rest total (p + 100 / (total : ℚ)) v sh ne).2) := by
  have h2 := (stepOk_true_iff e v sh ne).1 h
  simp only [verifyLoop, h2]
  rfl

/-- When the head exercise halts the batch, the loop's outcome does not
depend on the remaining exercises at all. -/
lemma verifyLoop_cons_halt (e : Exercise) (rest : List Exercise) (total : Nat)
    (p : ℚ) (v sh ne : Bool) (h : stepOk e v sh ne = false) :
    verifyLoop (e :: rest) total p v sh ne = verifyLoop [e] total p v sh ne := by
  have h2 := (stepOk_false_iff e v sh ne).1 h
  rcases h3 : (stepResult e v sh ne).2 with msg | b
  · simp [verifyLoop, h3]
  · rcases b with _ | _
    · simp [verifyLoop, h3]
    · exact absurd h3 h2

/-- The trace of a halting singleton batch is exactly the step's trace. -/
lemma verifyLoop_halt_trace (e : Exercise) (total : Nat) (p : ℚ) (v sh ne : Bool)
    (h : stepOk e v sh ne = false) :
    (verifyLoop [e] total p v sh ne).1 = (stepResult e v sh ne).1 := by
  have h2 := (stepOk_false_iff e v sh ne).1 h
  rcases h3 : (stepResult e v sh ne).2 with msg | b
  · simp [verifyLoop, h3]
  · rcases b with _ | _
    · simp [verifyLoop, h3]
    · exact absurd h3 h2

/-- Unfolding of `verify` to the initial percentage message plus the
loop. -/
lemma verify_def (pending : List Exercise) (d n : Nat) (v sh ne : Bool) :
    verify pending (d, n) v sh ne =
      (Event.setMsg ((d : ℚ) / (n : ℚ) * 100) ::
        (verifyLoop pending n ((d : ℚ) / (n : ℚ) * 100) v sh ne).1,
       (verifyLoop pending n ((d : ℚ) / (n : ℚ) * 100) v sh ne).2) := rfl

/-- On a still-pending exercise, the completion prompt reports `Ok(false)`
and emits the success line, the banner, and every context line. -/
lemma prompt_pending_spec (e : Exercise) (po : Option Output) (sh ne : Bool)
    (ctx : List ContextLine) (hstate : e.stateResult = .ok (.pending ctx)) :
    (prompt_for_completion e po sh ne).2 = .ok false ∧
    Event.success (success_line e) ∈ (prompt_for_completion e po sh ne).1 ∧
    Event.println (banner_str e ne) ∈ (prompt_for_completion e po sh ne).1 ∧
    ∀ cl ∈ ctx, Event.println (context_line_str cl) ∈ (prompt_for_completion e po sh ne).1 := by
  unfold prompt_for_completion
  rw [hstate]
  refine ⟨rfl, by simp, by simp, fun cl hcl => ?_⟩
  have hmem : Event.println (context_line_str cl) ∈
      ctx.map (fun c => Event.println (context_line_str c)) :=
    List.mem_map_of_mem _ hcl
  simp only [List.mem_cons, List.mem_append]
  tauto

/-- A loop step on an exercise whose invocation succeeds but whose marker
is still present: result `Ok(false)` and the banner plus context lines in
the trace, whatever the mode. -/
lemma stepResult_marker (e : Exercise) (out : Output) (ctx : List ContextLine)
    (v sh ne : Bool) (hrun : e.runResult = .ok out) (hok : out.status_success = true)
    (hstate : e.stateResult = .ok (.pending ctx)) :
    (stepResult e v sh ne).2 = .ok false ∧
    Event.success (success_line e) ∈ (stepResult e v sh ne).1 ∧
    Event.println (banner_str e ne) ∈ (stepResult e v sh ne).1 ∧
    ∀ cl ∈ ctx, Event.println (context_line_str cl) ∈ (stepResult e v sh ne).1 := by
  unfold stepResult compile_and_test compile_and_run_interactively compile_only
  rcases hm : e.mode with _ | _ | _
  · obtain ⟨h1, h2, h3, h4⟩ := prompt_pending_spec e none sh ne ctx hstate
    rw [hrun]
    rcases v with _ | _ <;>
      simp_all [List.mem_cons, List.mem_append]
  · obtain ⟨h1, h2, h3, h4⟩ := prompt_pending_spec e (some out) sh ne ctx hstate
    rw [hrun]
    simp_all [List.mem_cons]
  · obtain ⟨h1, h2, h3, h4⟩ := prompt_pending_spec e none sh ne ctx hstate
    rw [hrun]
    simp_all [List.mem_cons]

/-- The loop on a singleton batch whose step reports `Ok(false)`. -/
lemma verifyLoop_single_marker (e : Exercise) (total : Nat) (p : ℚ) (v sh ne : Bool)
    (hres : (stepResult e v sh ne).2 = .ok false) :
    verifyLoop [e] total p v sh ne = ((stepResult e v sh ne).1, .ok (.failed e)) := by
  simp [verifyLoop, hres]

/-- Trace of the loop when a prefix of fully passing exercises is
followed by a halting one: exactly one invocation per passed exercise
plus one for the halting exercise, in sequence order, and none for any
exercise after it. -/
lemma invokes_verifyLoop_halt (post : List Exercise) (total : Nat) (v sh ne : Bool)
    (e : Exercise) (he : stepOk e v sh ne = false) :
    ∀ (pre : List Exercise) (p : ℚ), (∀ x ∈ pre, stepOk x v sh ne = true) →
      invokes ((verifyLoop (pre ++ e :: post) total p v sh ne).1) =
        pre.map Exercise.name ++ [e.name] := by
  intro pre
  induction pre with
  | nil =>
    intro p _
    rw [List.nil_append, verifyLoop_cons_halt e post total p v sh ne he,
        verifyLoop_halt_trace e total p v sh ne he, invokes_stepResult]
    simp
  | cons x pre ih =>
    intro p hall
    have hx : stepOk x v sh ne = true := hall x (List.mem_cons_self x _)
    rw [List.cons_append, verifyLoop_cons_ok x (pre ++ e :: post) total p v sh ne hx]
    simp only [invokes_append, invokes_cons_setMsg, invokes_stepResult]
    rw [ih (p + 100 / (total : ℚ)) (fun y hy => hall y (List.mem_cons_of_mem _ hy))]
    simp

/-- Percentage messages of the loop when every exercise passes: one
increment of `100/total` per exercise. -/
lemma setMsgs_verifyLoop_all_ok (total : Nat) (v sh ne : Bool) :
    ∀ (pending : List Exercise) (p : ℚ), (∀ x ∈ pending, stepOk x v sh ne = true) →
      setMsgs ((verifyLoop pending total p v sh ne).1) =
        (List.range pending.length).map
          (fun i : Nat => p + ((i : ℚ) + 1) * (100 / (total : ℚ))) := by
  intro pending
  induction pending with
  | nil => intro p _; simp [verifyLoop]
  | cons x rest ih =>
    intro p hall
    have hx : stepOk x v sh ne = true := hall x (List.mem_cons_self x _)
    rw [verifyLoop_cons_ok x rest total p v sh ne hx]
    simp only [setMsgs_append, setMsgs_stepResult, setMsgs_cons_setMsg, List.nil_append]
    rw [ih (p + 100 / (total : ℚ)) (fun y hy => hall y (List.mem_cons_of_mem _ hy))]
    rw [List.length_cons, List.range_succ_eq_map, List.map_cons, List.map_map]
    congr 1
    · push_cast
      ring
    · apply List.map_congr_left
      intro i _
      simp only [Function.comp_apply]
      push_cast
      ring

/-! Claim theorems. -/

/-- Claim C1 (code_bug evaluation): on a nonzero exit status,
`compile_and_run_interactively` emits the warning and the captured
stdout+stderr, but then `bail!("TODO")` makes `verify` return a
process-level error `Err("TODO")` instead of the normal result
`Ok(Failed(exercise))` that the claim describes.  The single `invoke`
event also shows the exercise is not retried. -/
theorem C1_nonzero_exit_bails_not_failed :
    verify [exC1fail] (0, 1) false false false =
      ([Event.setMsg (((0 : Nat) : ℚ) / ((1 : Nat) : ℚ) * 100), Event.invoke "intro1",
        Event.warn "Ran intro1 with errors",
        Event.writeBytes "out1", Event.writeBytes "err1"], .error "TODO") ∧
    ∀ w : VerifyState, (verify [exC1fail] (0, 1) false false false).2 ≠ .ok w := by
  refine ⟨rfl, fun w h => ?_⟩
  rw [show (verify [exC1fail] (0, 1) false false false).2 = .error "TODO" from rfl] at h
  cases h

/-- Claim C6 (code_bug evaluation): in Clippy mode `compile_only` runs
`let _ = exercise.run()?;`, discarding the exit status, so a lint failure
(nonzero status) with no remaining marker is treated as success: the
batch continues and ends in `AllExercisesDone`, where the claim requires
a verification failure that halts the batch. -/
theorem C6_clippy_ignores_exit_status :
    exC6lint.runResult = .ok { status_success := false, stdout := "", stderr := "lint failure" } ∧
    verify [exC6lint] (0, 1) false false false =
      ([Event.setMsg (((0 : Nat) : ℚ) / ((1 : Nat) : ℚ) * 100), Event.invoke "clippy1",
        Event.setMsg (((0 : Nat) : ℚ) / ((1 : Nat) : ℚ) * 100 + 100 / ((1 : Nat) : ℚ)),
        Event.println "You completed all exercises!"], .ok .allExercisesDone) :=
  ⟨rfl, rfl⟩

/-- Claim C7: on an empty pending list `verify` returns
`AllExercisesDone` immediately, with no toolchain invocation, for every
`(done, total)` pair — in particular for `total = 0`, where the f32
percentage division (NaN in Rust, embedded as total division on ℚ) does
not fault. -/
theorem C7_empty_pending_all_done :
    ∀ (d n : Nat) (v sh ne : Bool),
      verify [] (d, n) v sh ne =
        ([Event.setMsg ((d : ℚ) / (n : ℚ) * 100),
          Event.println "You completed all exercises!"], .ok .allExercisesDone) ∧
      invokes ((verify [] (d, n) v sh ne).1) = [] :=
  fun _ _ _ _ _ => ⟨rfl, rfl⟩

/-- Claim C2 (code_bug evaluation): in the `list` key match, `d`, `p`,
`r` and `c` all fall into the `_ => ()` arm: pressing them only triggers
a redraw.  After the script d,p,r,c the loop is still reading (it ends
`blocked` on the exhausted script rather than exiting at `c`), the
selection never changes, no completion flag is touched (the code holds
`&State`, an immutable borrow, so it could not mutate it), and the
alternate screen is never left. -/
theorem C2_filter_reset_continue_keys_ignored :
    list stC2 [exC2] [.ok (.key true (.char 'd')), .ok (.key true (.char 'p')),
        .ok (.key true (.char 'r')), .ok (.key true (.char 'c'))] =
      ([UiEvent.enterAlt, UiEvent.rawModeOn, UiEvent.selectIdx 0, UiEvent.draw 0,
        UiEvent.draw 0, UiEvent.draw 0, UiEvent.draw 0, UiEvent.draw 0],
       .error .blocked) :=
  rfl

/-- Claim C3 (code_bug evaluation): when `event::read()` fails, the `?`
propagates the error before `LeaveAlternateScreen` / `disable_raw_mode`
run, so the trace ends without the restore events and the terminal is
left in raw, alternate-screen mode. -/
theorem C3_terminal_not_restored_on_error :
    list stC3 [exC3] [.error "read failed"] =
      ([UiEvent.enterAlt, UiEvent.rawModeOn, UiEvent.selectIdx 0, UiEvent.draw 0],
       .error (.ioError "read failed")) ∧
    UiEvent.leaveAlt ∉ (list stC3 [exC3] [.error "read failed"]).1 ∧
    UiEvent.rawModeOff ∉ (list stC3 [exC3] [.error "read failed"]).1 := by
  exact ⟨rfl, by decide, by decide⟩

/-- Claim C4: when the toolchain invocation succeeds but the source still
contains the "not done" marker, `verify` emits the success banner and the
surrounding context lines and halts the batch with `Failed(exercise)`;
the whole outcome is identical to verifying the singleton batch, so no
later exercise of the pending sequence is processed. -/
theorem C4_marker_halts_batch (e : Exercise) (rest : List Exercise) (out : Output)
    (ctx : List ContextLine) (d n : Nat) (v sh ne : Bool)
    (hrun : e.runResult = .ok out) (hok : out.status_success = true)
    (hstate : e.stateResult = .ok (.pending ctx)) :
    verify (e :: rest) (d, n) v sh ne = verify [e] (d, n) v sh ne ∧
    (verify (e :: rest) (d, n) v sh ne).2 = .ok (.failed e) ∧
    Event.success (success_line e) ∈ (verify (e :: rest) (d, n) v sh ne).1 ∧
    Event.println (banner_str e ne) ∈ (verify (e :: rest) (d, n) v sh ne).1 ∧
    ∀ cl ∈ ctx, Event.println (context_line_str cl) ∈ (verify (e :: rest) (d, n) v sh ne).1 := by
  obtain ⟨hres, hsucc, hban, hctx⟩ := stepResult_marker e out ctx v sh ne hrun hok hstate
  have hhalt : stepOk e v sh ne = false := by
    refine (stepOk_false_iff e v sh ne).2 ?_
    rw [hres]
    intro hcontra
    cases hcontra
  have hloop := verifyLoop_cons_halt e rest n ((d : ℚ) / (n : ℚ) * 100) v sh ne hhalt
  have hsingle := verifyLoop_single_marker e n ((d : ℚ) / (n : ℚ) * 100) v sh ne hres
  refine ⟨?_, ?_, ?_, ?_, ?_⟩
  · rw [verify_def, verify_def, hloop]
  · rw [verify_def]
    simp only
    rw [hloop, hsingle]
  · rw [verify_def]
    simp only [List.mem_cons]
    right
    rw [hloop, hsingle]
    exact hsucc
  · rw [verify_def]
    simp only [List.mem_cons]
    right
    rw [hloop, hsingle]
    exact hban
  · intro cl hcl
    rw [verify_def]
    simp only [List.mem_cons]
    right
    rw [hloop, hsingle]
    exact hctx cl hcl

/-- Witness for C4 at a concrete batch: a Compile-mode exercise whose
invocation succeeds with the marker still present, followed by one more
pending exercise. -/
theorem C4_marker_halts_batch_witness :
    exC4.runResult = .ok outC4 ∧ outC4.status_success = true ∧
    exC4.stateResult = .ok (.pending [clC4]) ∧
    (verify [exC4, exC4b] (0, 2) false false false).2 = .ok (.failed exC4) :=
  ⟨rfl, rfl, rfl,
    (C4_marker_halts_batch exC4 [exC4b] outC4 [clC4] 0 2 false false false
      rfl rfl rfl).2.1⟩

/-- Claim C5: within one batch the toolchain is invoked strictly in
sequence order, and once one exercise halts the batch (its step does not
report `Ok(true)` — a failed invocation or a remaining marker), the
invocation trace is exactly the names of the preceding passing exercises
followed by that exercise: no invocation ever occurs for an exercise
after it. -/
theorem C5_strict_order_no_invocation_after_halt (pre : List Exercise) (e : Exercise)
    (post : List Exercise) (d n : Nat) (v sh ne : Bool)
    (hpre : ∀ x ∈ pre, stepOk x v sh ne = true) (he : stepOk e v sh ne = false) :
    invokes ((verify (pre ++ e :: post) (d, n) v sh ne).1) =
      pre.map Exercise.name ++ [e.name] := by
  rw [verify_def]
  simpa using invokes_verifyLoop_halt post n v sh ne e he pre _ hpre

/-- Witness for C5: one passing exercise, then a failing one, then one
more; only `a` and `b` are ever invoked. -/
theorem C5_strict_order_witness :
    (∀ x ∈ [exC5a], stepOk x false false false = true) ∧
    stepOk exC5b false false false = false ∧
    invokes ((verify ([exC5a] ++ exC5b :: [exC5c]) (0, 3) false false false).1) =
      ["a", "b"] :=
  ⟨by decide, by decide,
    C5_strict_order_no_invocation_after_halt [exC5a] exC5b [exC5c] 0 3
      false false false (by decide) (by decide)⟩

/-- Claim C9: when every pending exercise passes, the displayed progress
percentages are `(d+i)/n * 100` for `i = 0 .. k` (the initial message and
one per completed exercise); the increment per exercise is exactly
`100/n` since `(d+i+1)/n*100 = (d+i)/n*100 + 100/n` (exactly over ℚ, the
idealization of the f32 arithmetic "within floating rounding
tolerance"). -/
theorem C9_progress_percentage (pending : List Exercise) (d n : Nat) (v sh ne : Bool)
    (hall : ∀ x ∈ pending, stepOk x v sh ne = true) :
    setMsgs ((verify pending (d, n) v sh ne).1) =
      (List.range (pending.length + 1)).map
        (fun i : Nat => ((d : ℚ) + (i : ℚ)) / (n : ℚ) * 100) ∧
    ∀ i : Nat, ((d : ℚ) + (i : ℚ) + 1) / (n : ℚ) * 100 =
      ((d : ℚ) + (i : ℚ)) / (n : ℚ) * 100 + 100 / (n : ℚ) := by
  constructor
  · rw [verify_def]
    simp only [setMsgs_cons_setMsg]
    rw [setMsgs_verifyLoop_all_ok n v sh ne pending _ hall]
    rw [List.range_succ_eq_map, List.map_cons, List.map_map]
    congr 1
    · push_cast
      ring
    · apply List.map_congr_left
      intro i _
      simp only [Function.comp_apply]
      push_cast
      ring
  · intro i
    ring

/-- Witness for C9: one passing exercise, starting from 1 of 2 done. -/
theorem C9_progress_percentage_witness :
    (∀ x ∈ [exC9], stepOk x false false false = true) ∧
    setMsgs ((verify [exC9] (1, 2) false false false).1) =
      (List.range ([exC9].length + 1)).map
        (fun i : Nat => (((1 : Nat) : ℚ) + (i : ℚ)) / ((2 : Nat) : ℚ) * 100) :=
  ⟨by decide, (C9_progress_percentage [exC9] 1 2 false false false (by decide)).1⟩

/-- Every selection a movement key can produce stays in bounds when the
current selection is in bounds. -/
lemma keyMove_le (last_ind selected : Nat) (h : selected ≤ last_ind)
    (code : KeyCode) (m : Nat) (hm : keyMove last_ind selected code = some m) :
    m ≤ last_ind := by
  rcases code with c | _ | _ | _ | _ | _
  · simp only [keyMove] at hm
    split at hm
    · injection hm with hx
      omega
    · split at hm
      · injection hm with hx
        omega
      · split at hm
        · injection hm with hx
          omega
        · split at hm
          · injection hm with hx
            omega
          · cases hm
  · injection hm with hx
    omega
  · injection hm with hx
    omega
  · injection hm with hx
    omega
  · injection hm with hx
    omega
  · cases hm

/-- Every `table_state.select` in a run of the render loop stays within
`[0, last_ind]` when the loop is entered with an in-bounds selection. -/
lemma listLoopRead_select_le (last_ind : Nat) :
    ∀ (events : List (Except String InputEvent)) (selected : Nat),
      selected ≤ last_ind →
      ∀ m, UiEvent.selectIdx m ∈ (listLoopRead last_ind selected events).1 →
        m ≤ last_ind := by
  intro events
  induction events with
  | nil =>
    intro sel hsel m hm
    simp [listLoopRead] at hm
  | cons ev rest ih =>
    intro sel hsel m hm
    rcases ev with msg | iev
    · simp [listLoopRead] at hm
    · cases iev with
      | key isPress code =>
        simp only [listLoopRead] at hm
        by_cases hp : isPress = false
        · rw [if_pos hp] at hm
          exact ih sel hsel m hm
        · rw [if_neg hp] at hm
          by_cases hq : code = .char 'q'
          · rw [if_pos hq] at hm
            simp at hm
          · rw [if_neg hq] at hm
            rcases hk : keyMove last_ind sel code with _ | s'
            · rw [hk] at hm
              simp only [List.mem_cons] at hm
              rcases hm with h1 | h2
              · cases h1
              · exact ih sel hsel m h2
            · rw [hk] at hm
              simp only [List.mem_cons] at hm
              have hs' : s' ≤ last_ind := keyMove_le last_ind sel hsel code s' hk
              rcases hm with h1 | h2 | h3
              · injection h1 with hx
                omega
              · cases h2
              · exact ih s' hs' m h3
      | resize =>
        simp only [listLoopRead, List.mem_cons] at hm
        rcases hm with h1 | h2
        · cases h1
        · exact ih sel hsel m h2
      | focusGained => exact ih sel hsel m (by simpa [listLoopRead] using hm)
      | focusLost => exact ih sel hsel m (by simpa [listLoopRead] using hm)
      | mouse => exact ih sel hsel m (by simpa [listLoopRead] using hm)
      | paste => exact ih sel hsel m (by simpa [listLoopRead] using hm)

/-- The render loop can end blocked, with an I/O error, or by `q` — it
never produces the subtraction-underflow panic. -/
lemma listLoopRead_ne_subOverflow (last_ind : Nat) :
    ∀ (events : List (Except String InputEvent)) (selected : Nat),
      (listLoopRead last_ind selected events).2 ≠ .error .subOverflow := by
  intro events
  induction events with
  | nil =>
    intro sel
    simp [listLoopRead]
  | cons ev rest ih =>
    intro sel
    rcases ev with msg | iev
    · simp [listLoopRead]
    · cases iev with
      | key isPress code =>
        simp only [listLoopRead]
        by_cases hp : isPress = false
        · rw [if_pos hp]
          exact ih sel
        · rw [if_neg hp]
          by_cases hq : code = .char 'q'
          · rw [if_pos hq]
            simp
          · rw [if_neg hq]
            rcases hk : keyMove last_ind sel code with _ | s'
            · exact ih sel
            · exact ih s'
      | resize => exact ih sel
      | focusGained => exact ih sel
      | focusLost => exact ih sel
      | mouse => exact ih sel
      | paste => exact ih sel

/-- Shape of the full `list` trace on a nonempty catalog: the setup
events, the initial selection of index 0, the first draw, the loop trace,
and the restore events exactly when the loop ended normally. -/
lemma list_trace_shape (s : CompletionState) (exs : List Exercise)
    (events : List (Except String InputEvent)) (h : exs.length ≠ 0) :
    (list s exs events).1 =
      [UiEvent.enterAlt, UiEvent.rawModeOn, UiEvent.selectIdx 0, UiEvent.draw 0] ++
        (listLoopRead (exs.length - 1) 0 events).1 ++
        (match (listLoopRead (exs.length - 1) 0 events).2 with
         | .ok _ => [UiEvent.leaveAlt, UiEvent.rawModeOff]
         | .error _ => []) := by
  unfold list
  rw [if_neg h]
  rcases hres : (listLoopRead (exs.length - 1) 0 events).2 with er | u <;> simp [hres]

/-- Result of the full `list` on a nonempty catalog: the loop's own
outcome (`Ok` after a normal quit, otherwise the propagated error). -/
lemma list_result_nonempty (s : CompletionState) (exs : List Exercise)
    (events : List (Except String InputEvent)) (h : exs.length ≠ 0) :
    (list s exs events).2 =
      (match (listLoopRead (exs.length - 1) 0 events).2 with
       | .ok _ => Except.ok ()
       | .error e => .error e) := by
  unfold list
  rw [if_neg h]
  rcases hres : (listLoopRead (exs.length - 1) 0 events).2 with er | u <;> simp [hres]

/-- Claim C8: over every key-press script the ListView selection starts
at 0 (independent of the passed `CompletionState`, hence of
`next_exercise_index`), every selection the loop ever sets stays within
`[0, len(catalog)-1]`, and the per-key transitions are: down/`j` saturate
at the last index, up/`k` saturate at 0, home/`g` jump to 0, end/`G` jump
to the last index, with every movement result bounded by the last
index. -/
theorem C8_selection_state_machine (s : CompletionState) (exs : List Exercise)
    (events : List (Except String InputEvent)) (hne : exs ≠ []) :
    (list s exs events).1.take 4 =
      [UiEvent.enterAlt, UiEvent.rawModeOn, UiEvent.selectIdx 0, UiEvent.draw 0] ∧
    (∀ m, UiEvent.selectIdx m ∈ (list s exs events).1 → m ≤ exs.length - 1) ∧
    (∀ last sel : Nat, sel ≤ last →
      keyMove last sel .down = some (min (sel + 1) last) ∧
      keyMove last sel (.char 'j') = some (min (sel + 1) last) ∧
      keyMove last sel .up = some (max (sel - 1) 0) ∧
      keyMove last sel (.char 'k') = some (max (sel - 1) 0) ∧
      keyMove last sel .home = some 0 ∧
      keyMove last sel (.char 'g') = some 0 ∧
      keyMove last sel .endKey = some last ∧
      keyMove last sel (.char 'G') = some last ∧
      ∀ (code : KeyCode) (m : Nat), keyMove last sel code = some m → m ≤ last) := by
  have hlen : exs.length ≠ 0 := by
    intro h0
    exact hne (List.length_eq_zero.1 h0)
  refine ⟨?_, ?_, ?_⟩
  · rw [list_trace_shape s exs events hlen]
    rfl
  · intro m hm
    rw [list_trace_shape s exs events hlen] at hm
    simp only [List.append_assoc, List.mem_append, List.mem_cons,
      List.not_mem_nil, or_false] at hm
    rcases hm with (h1 | h1 | h1 | h1) | h1 | h1
    · cases h1
    · cases h1
    · injection h1 with hx
      omega
    · cases h1
    · exact listLoopRead_select_le (exs.length - 1) events 0 (Nat.zero_le _) m h1
    · rcases hres : (listLoopRead (exs.length - 1) 0 events).2 with er | u <;>
        rw [hres] at h1 <;> simp at h1
  · intro last sel hsel
    refine ⟨rfl, by simp [keyMove], rfl, by simp [keyMove], rfl, ?_, rfl, ?_, ?_⟩
    · simp [keyMove]
    · simp [keyMove]
    · exact fun code m hm => keyMove_le last sel hsel code m hm

/-- Witness for C8 at a concrete catalog and state: the
`next_exercise_index` is 1, yet the trace starts by selecting 0. -/
theorem C8_selection_state_machine_witness :
    [exC8] ≠ ([] : List Exercise) ∧
    (list stC8 [exC8] [.ok (.key true .down)]).1.take 4 =
      [UiEvent.enterAlt, UiEvent.rawModeOn, UiEvent.selectIdx 0, UiEvent.draw 0] :=
  ⟨by simp, (C8_selection_state_machine stC8 [exC8] [.ok (.key true .down)]
    (by simp)).1⟩

/-- Claim C10: `list` unconditionally computes `exercises.len() - 1`
before the event loop, so an empty catalog hits the debug-build
subtraction underflow before any drawing; on a nonempty catalog that
panic can never occur and the subtraction is exact
(`len - 1 + 1 = len`). -/
theorem C10_empty_catalog_underflow :
    (∀ (s : CompletionState) (events : List (Except String InputEvent)),
      list s [] events = ([UiEvent.enterAlt, UiEvent.rawModeOn], .error .subOverflow)) ∧
    (∀ (s : CompletionState) (exs : List Exercise)
        (events : List (Except String InputEvent)), exs ≠ [] →
      (list s exs events).2 ≠ .error .subOverflow) ∧
    (∀ exs : List Exercise, exs ≠ [] → exs.length - 1 + 1 = exs.length) := by
  refine ⟨fun s events => rfl, ?_, ?_⟩
  · intro s exs events hne
    have hlen : exs.length ≠ 0 := by
      intro h0
      exact hne (List.length_eq_zero.1 h0)
    rw [list_result_nonempty s exs events hlen]
    rcases hres : (listLoopRead (exs.length - 1) 0 events).2 with er | u
    · simp only
      intro hcontra
      injection hcontra with hx
      rw [hx] at hres
      exact listLoopRead_ne_subOverflow (exs.length - 1) events 0 hres
    · simp
  · intro exs hne
    have := List.length_pos.2 hne
    omega

/-- Witness for C10: the empty catalog hits the underflow; a singleton
catalog cannot. -/
theorem C10_empty_catalog_underflow_witness :
    list stC10 [] [] = ([UiEvent.enterAlt, UiEvent.rawModeOn], .error .subOverflow) ∧
    [exC10] ≠ ([] : List Exercise) ∧
    (list stC10 [exC10] []).2 ≠ .error .subOverflow :=
  ⟨C10_empty_catalog_underflow.1 stC10 [],
   by simp,
   C10_empty_catalog_underflow.2.1 stC10 [exC10] [] (by simp)⟩

end Rustlings
